import Mathlib

/-!
Verification of the SocketIO chat server: presence registry, activity
tracker, conversation router (sendMessage), read-receipt reconciler
(markAsRead), and the notification subsystem (sendNotificationToUser,
canSendWeatherAlert, sendWeatherAlert, sendPushNotificationToMultiple).

The JavaScript source keeps its state in `Map` and `Set` objects; those are
embedded here as association lists over `String` keys (`aget`, `aset`,
`adel`) and duplicate-free lists (`setAdd`, `List.erase`).  Database reads
and external sends are parameters of the embedded functions: a table is a
list of rows, a fallible query is an `Except`, a per-token gateway outcome
is a `String → Bool`.
-/

namespace SocketServer

/-- Association-list lookup, the embedding of `Map.get`. -/
def aget {β : Type} : List (String × β) → String → Option β
  | [], _ => none
  | (k, v) :: rest, key => if k = key then some v else aget rest key

/-- Association-list upsert, the embedding of `Map.set`. -/
def aset {β : Type} : List (String × β) → String → β → List (String × β)
  | [], key, val => [(key, val)]
  | (k, v) :: rest, key, val =>
      if k = key then (key, val) :: rest else (k, v) :: aset rest key val

/-- Association-list removal, the embedding of `Map.delete`. -/
def adel {β : Type} : List (String × β) → String → List (String × β)
  | [], _ => []
  | (k, v) :: rest, key =>
      if k = key then adel rest key else (k, v) :: adel rest key

/-- The embedding of `Set.add`: append the element when absent. -/
def setAdd (s : List String) (x : String) : List String :=
  if x ∈ s then s else s ++ [x]

/-- An `online-status` broadcast payload (`{userId, online, last_seen}`;
the timestamp is not modelled). -/
structure OnlineStatus where
  userId : String
  online : Bool
deriving DecidableEq, Repr

/-- The presence-relevant server state: `userSocketMap : Map<userId,
Set<socketId>>`, the per-socket `socket.userId` field (as a map from socket
id to its remembered owner), and the list of emitted `online-status`
events in emission order. -/
structure PresenceState where
  userSocketMap : List (String × List String)
  socketUser : List (String × String)
  emitted : List OnlineStatus
deriving DecidableEq, Repr

/-- The shared body of both servers' `markUserOnline`: set `socket.userId`,
add the socket id to the user's set, and emit `online-status {online:
true}` exactly when the set size after the add is 1. -/
def registerCore (st : PresenceState) (socketId userId : String) : PresenceState :=
  let existing := (aget st.userSocketMap userId).getD []
  let updated := setAdd existing socketId
  { userSocketMap := aset st.userSocketMap userId updated
    socketUser := aset st.socketUser socketId userId
    emitted := st.emitted ++ (if updated.length = 1 then [⟨userId, true⟩] else []) }

/-- The current server's registration validity test `!userId || typeof
userId !== "string" || userId.trim() === ""`: in this embedding `userId`
is always a string, and a string trims to the empty string exactly when
every character is whitespace (which also covers the empty string). -/
def strBlank (s : String) : Bool := s.data.all Char.isWhitespace

/-- `markUserOnline` of the current server: rejects an empty or
whitespace-only `userId` before touching any state. -/
def markUserOnline (st : PresenceState) (socketId userId : String) : PresenceState :=
  if strBlank userId then st else registerCore st socketId userId

/-- `markUserOnline` of the older near-duplicate server in the same source
file: identical body but no validation guard. -/
def markUserOnlineOld (st : PresenceState) (socketId userId : String) : PresenceState :=
  registerCore st socketId userId

/-- The `disconnect` handler: look up the remembered owner, remove the
socket from its set, and when the set becomes empty delete the entry and
emit `online-status {online: false}`. -/
def disconnectHandler (st : PresenceState) (socketId : String) : PresenceState :=
  match aget st.socketUser socketId with
  | none => st
  | some userId =>
    match aget st.userSocketMap userId with
    | none => st
    | some s =>
      let s2 := s.erase socketId
      if s2.length = 0 then
        { userSocketMap := adel st.userSocketMap userId
          socketUser := st.socketUser
          emitted := st.emitted ++ [⟨userId, false⟩] }
      else
        { userSocketMap := aset st.userSocketMap userId s2
          socketUser := st.socketUser
          emitted := st.emitted }

/-- One inbound presence event: a `registerUser` / `user-online` payload
handled on a given socket, or a `disconnect` of a socket. -/
inductive PresenceEvent where
  | register (userId socketId : String)
  | disconnect (socketId : String)
deriving DecidableEq, Repr

/-- Dispatch one presence event to its handler. -/
def presenceStep (st : PresenceState) : PresenceEvent → PresenceState
  | .register u c => markUserOnline st c u
  | .disconnect c => disconnectHandler st c

/-- The server state at boot: empty maps, nothing emitted. -/
def initialPresence : PresenceState := ⟨[], [], []⟩

/-- Run a sequence of presence events from boot. -/
def presenceRun (evs : List PresenceEvent) : PresenceState :=
  evs.foldl presenceStep initialPresence

/-- The size of a user's live-connection set as stored in the map. -/
def userConnCount (st : PresenceState) (u : String) : Nat :=
  ((aget st.userSocketMap u).getD []).length

/-- Checks that every `register` event in a trace carries that socket's
one fixed owner, i.e. no socket ever re-registers under a different user. -/
def traceRespectsOwner (owner : String → String) (evs : List PresenceEvent) : Bool :=
  evs.all fun e =>
    match e with
    | .register u c => decide (u = owner c)
    | .disconnect _ => true

/-- A user activity record: the fields the `user:page` and
`user:conversation` handlers write on the per-user object. -/
structure Activity where
  page : Option String
  activeConversation : Option String
deriving DecidableEq, Repr

/-- The empty activity object `{}` a fresh map entry starts from (and the
default an absent entry reads as). -/
def emptyActivity : Activity := ⟨none, none⟩

/-- The activity state as the source actually keeps it: `const
userActivity = new Map()` is declared inside the per-connection handler,
so the state is a map from connection id to that connection's private
`userActivity` map. -/
def ConnActivities : Type := List (String × List (String × Activity))

/-- The `user:page` handler, running on connection `conn`: upsert the page
into that connection's own `userActivity` map. -/
def handleUserPage (acts : ConnActivities) (conn userId page : String) : ConnActivities :=
  let m := (aget acts conn).getD []
  let a := (aget m userId).getD emptyActivity
  aset acts conn (aset m userId { a with page := some page })

/-- The `user:conversation` handler, running on connection `conn`:
upsert `activeConversation` (to the id when `active`, else to null) into
that connection's own `userActivity` map. -/
def handleUserConversation (acts : ConnActivities) (conn userId conversationId : String)
    (active : Bool) : ConnActivities :=
  let m := (aget acts conn).getD []
  let a := (aget m userId).getD emptyActivity
  aset acts conn
    (aset m userId { a with activeConversation := if active then some conversationId else none })

/-- The activity snapshot the `sendMessage` handler on connection `conn`
reads for a user: `userActivity.get(recipientId) || {}` against that
connection's own map. -/
def activitySnapshot (acts : ConnActivities) (conn userId : String) : Activity :=
  (aget ((aget acts conn).getD []) userId).getD emptyActivity

/-- The push-warranted condition of the `sendMessage` handler:
`!recipientOnline || !isInChatsPage || !isReadingConversation`. -/
def shouldSendNotification (recipientOnline : Bool) (activity : Activity)
    (conversationId : String) : Bool :=
  let isInChatsPage := decide (activity.page = some "chats")
  let isReadingConversation := decide (activity.activeConversation = some conversationId)
  !recipientOnline || !isInChatsPage || !isReadingConversation

/-- The observable routing effects of a successful `sendMessage`: the list
of per-socket `receiveMessage` emissions in order (the room broadcast
reaches each socket in the room once, then the direct loop reaches each
socket of the recipient's set), and whether a push dispatch is attempted.
`recipientSockets` is `userSocketMap.get(recipientId)` (`none` when the
map has no entry, which is also exactly when `recipientOnline` is false). -/
def sendMessageEffects (roomMembers : List String) (recipientSockets : Option (List String))
    (activity : Activity) (senderId recipientId conversationId : String) :
    List String × Bool :=
  let deliveries := roomMembers ++
    (match recipientSockets with
     | some socks => if recipientId ≠ senderId then socks else []
     | none => [])
  let pushAttempted :=
    if recipientId ≠ "" ∧ recipientId ≠ senderId then
      shouldSendNotification recipientSockets.isSome activity conversationId
    else false
  (deliveries, pushAttempted)

/-- A stored chat message row, with the columns `markAsRead` touches. -/
structure Msg where
  id : Nat
  conversation_id : String
  sender_id : String
  read_at : Option Nat
deriving DecidableEq, Repr

/-- The row filter of the `markAsRead` update and count queries:
`.eq("conversation_id", cid).neq("sender_id", reader).is("read_at", null)`. -/
def unreadMatch (cid reader : String) (m : Msg) : Bool :=
  decide (m.conversation_id = cid) && decide (m.sender_id ≠ reader) && decide (m.read_at = none)

/-- A `messagesSeen` broadcast payload. -/
structure SeenEvent where
  conversation_id : String
  reader_id : String
  seen_message_ids : List Nat
  unread_count : Nat
deriving DecidableEq, Repr

/-- First-occurrence deduplication, the embedding of `[...new Set(xs)]`. -/
def dedupFirst : List String → List String
  | [] => []
  | a :: l => a :: dedupFirst (l.filter (fun x => decide (x ≠ a)))
termination_by l => l.length
decreasing_by
  simp only [List.length_cons]
  exact Nat.lt_succ_of_le (List.length_filter_le _ _)

/-- The full observable outcome of one `markAsRead` call: the message
table after the update, the `messagesSeen` event broadcast to the
conversation room, and the distinct senders additionally notified
directly (empty in the zero-rows-updated branch, which returns early). -/
structure MarkReadOutcome where
  store : List Msg
  roomEvent : SeenEvent
  directSenderIds : List String
deriving DecidableEq, Repr

/-- The `markAsRead` handler: set `read_at = now` on every unread message
from others in the conversation, then recount the remaining unread
messages and broadcast `messagesSeen` to the room in both the
zero-updated and the some-updated branch; only the latter also notifies
each distinct original sender directly.  (In the zero-updated branch the
count query runs against the unchanged table, which is the same list.) -/
def markAsRead (store : List Msg) (cid reader : String) (now : Nat) : MarkReadOutcome :=
  let updated := store.filter (unreadMatch cid reader)
  let store2 := store.map fun m =>
    if unreadMatch cid reader m then { m with read_at := some now } else m
  let unread := (store2.filter (unreadMatch cid reader)).length
  if updated.length = 0 then
    ⟨store2, ⟨cid, reader, [], unread⟩, []⟩
  else
    ⟨store2, ⟨cid, reader, updated.map (·.id), unread⟩,
      dedupFirst (updated.map (·.sender_id))⟩

/-- The unread total for `(conversation, reader)` as the recount query
computes it. -/
def unreadCount (store : List Msg) (cid reader : String) : Nat :=
  (store.filter (unreadMatch cid reader)).length

/-- A `weather_alerts_sent` row, with the columns `canSendWeatherAlert`
filters on. -/
structure AlertRow where
  user_id : String
  sent_at : Nat
deriving DecidableEq, Repr

/-- The `{canSend, count}` result of `canSendWeatherAlert`. -/
structure CanSendResult where
  canSend : Bool
  count : Nat
deriving DecidableEq, Repr

/-- The rows the gate's query returns: `.eq("user_id", userId)
.gte("sent_at", todayStart)`, counted. -/
def countAlertsToday (rows : List AlertRow) (userId : String) (todayStart : Nat) : Nat :=
  (rows.filter fun r => decide (r.user_id = userId) && decide (todayStart ≤ r.sent_at)).length

/-- `canSendWeatherAlert`: allowed iff fewer than 3 logged sends since the
start of the current local day; on any query failure it returns
`{canSend: true, count: 0}` (fail-open).  The `Except` argument is the
outcome of the store read. -/
def canSendWeatherAlert (query : Except Unit (List AlertRow)) (userId : String)
    (todayStart : Nat) : CanSendResult :=
  match query with
  | .error _ => ⟨true, 0⟩
  | .ok rows =>
    let count := countAlertsToday rows userId todayStart
    ⟨decide (count < 3), count⟩

/-- The outcome of the preference lookup inside `sendNotificationToUser`:
either the lookup errored or threw (`unavailable`), or the user record
was found with its `notifications_enabled` metadata field (absent = `none`). -/
inductive PrefCheck where
  | unavailable
  | available (enabled : Option Bool)
deriving DecidableEq, Repr

/-- The result object `sendNotificationToUser` returns, with absent JS
fields read as their defaults (`skipped` false, counts 0). -/
structure NotifResult where
  success : Bool
  skipped : Bool
  errorMsg : Option String
  sent : Nat
  failed : Nat
  total : Nat
deriving DecidableEq, Repr

/-- The side effects of one `sendNotificationToUser` call: whether the
notification row insert was reached, and the tokens a push send was
attempted for. -/
structure NotifEffects where
  persisted : Bool
  dispatched : List String
deriving DecidableEq, Repr

/-- `sendPushNotificationToMultiple`: throws when given no tokens,
otherwise fans out one send per token under `Promise.allSettled` and
returns the fulfilled and rejected counts.  `sendOk` gives each token's
gateway outcome. -/
def sendPushNotificationToMultiple (sendOk : String → Bool) (tokens : List String) :
    Except String (Nat × Nat) :=
  if tokens = [] then .error "No tokens provided"
  else .ok ((tokens.filter sendOk).length, (tokens.filter fun t => !(sendOk t)).length)

/-- `sendNotificationToUser`: guard on the user id; skip with a
distinguished result when `notifications_enabled` is explicitly false
(an unreadable preference proceeds as enabled); persist the notification
row; fetch the tokens (query error and empty list are distinct failure
results); fan out and report `success: true` with the per-token counts. -/
def sendNotificationToUser (pref : PrefCheck) (tokensQuery : Except String (List String))
    (sendOk : String → Bool) (userId : String) : NotifResult × NotifEffects :=
  if userId = "" then
    ({ success := false, skipped := false, errorMsg := some "User ID required",
       sent := 0, failed := 0, total := 0 }, ⟨false, []⟩)
  else if pref = .available (some false) then
    ({ success := false, skipped := true, errorMsg := some "Notifications disabled by user",
       sent := 0, failed := 0, total := 0 }, ⟨false, []⟩)
  else
    match tokensQuery with
    | .error e =>
        ({ success := false, skipped := false, errorMsg := some e,
           sent := 0, failed := 0, total := 0 }, ⟨true, []⟩)
    | .ok [] =>
        ({ success := false, skipped := false, errorMsg := some "No tokens found",
           sent := 0, failed := 0, total := 0 }, ⟨true, []⟩)
    | .ok tokens =>
        match sendPushNotificationToMultiple sendOk tokens with
        | .error e =>
            ({ success := false, skipped := false, errorMsg := some e,
               sent := 0, failed := 0, total := 0 }, ⟨true, []⟩)
        | .ok (okCount, failCount) =>
            ({ success := true, skipped := false, errorMsg := none,
               sent := okCount, failed := failCount, total := tokens.length }, ⟨true, tokens⟩)

/-- The keys of an association list are pairwise distinct (true of every
JS `Map` and preserved by `aset` and `adel`). -/
def keysNodup {β : Type} (m : List (String × β)) : Prop :=
  (m.map Prod.fst).Nodup

/-- Every socket stored under a user in the map belongs to that user
according to a fixed ownership function. -/
def ownedBy (owner : String → String) (m : List (String × List String)) : Prop :=
  ∀ u s, (u, s) ∈ m → ∀ c ∈ s, owner c = u

/-- The presence invariant maintained by the handlers when every socket
only ever registers under its one owner. -/
def presenceInv (owner : String → String) (st : PresenceState) : Prop :=
  keysNodup st.userSocketMap ∧ ownedBy owner st.userSocketMap

/-- The outcome of `sendWeatherAlert`: the notification result it
returns, whether it returned the distinguished limit-reached result, and
whether `recordWeatherAlertSent` was invoked. -/
structure WeatherAlertOutcome where
  result : NotifResult
  limitReached : Bool
  recorded : Bool
deriving DecidableEq, Repr

/-- `sendWeatherAlert`: consult the gate; on denial return the
limit-reached result without dispatching; otherwise dispatch via
`sendNotificationToUser` and record the send iff the result reports
success. -/
def sendWeatherAlert (gate : CanSendResult) (pref : PrefCheck)
    (tokensQuery : Except String (List String)) (sendOk : String → Bool)
    (userId : String) : WeatherAlertOutcome :=
  if gate.canSend = false then
    ⟨{ success := false, skipped := false, errorMsg := some "Daily limit reached",
       sent := 0, failed := 0, total := 0 }, true, false⟩
  else
    let res := (sendNotificationToUser pref tokensQuery sendOk userId).1
    ⟨res, false, res.success⟩

lemma aget_mem {β : Type} : ∀ {m : List (String × β)} {k : String} {v : β},
    aget m k = some v → (k, v) ∈ m := by
  intro m
  induction m with
  | nil => intro k v h; simp [aget] at h
  | cons p rest ih =>
    intro k v h
    obtain ⟨k', v'⟩ := p
    simp only [aget] at h
    by_cases hk : k' = k
    · rw [if_pos hk] at h
      obtain rfl := Option.some.inj h
      subst hk
      exact List.mem_cons_self _ _
    · rw [if_neg hk] at h
      exact List.mem_cons_of_mem _ (ih h)

lemma mem_aset {β : Type} : ∀ {m : List (String × β)} {k : String} {v : β} {p : String × β},
    p ∈ aset m k v → p = (k, v) ∨ p ∈ m := by
  intro m
  induction m with
  | nil => intro k v p h; simp [aset] at h; exact Or.inl h
  | cons q rest ih =>
    intro k v p h
    obtain ⟨k', v'⟩ := q
    simp only [aset] at h
    by_cases hk : k' = k
    · rw [if_pos hk] at h
      rcases List.mem_cons.mp h with h | h
      · exact Or.inl h
      · exact Or.inr (List.mem_cons_of_mem _ h)
    · rw [if_neg hk] at h
      rcases List.mem_cons.mp h with h | h
      · exact Or.inr (h ▸ List.mem_cons_self _ _)
      · rcases ih h with h | h
        · exact Or.inl h
        · exact Or.inr (List.mem_cons_of_mem _ h)

lemma mem_keys_aset {β : Type} : ∀ {m : List (String × β)} {k a : String} {v : β},
    a ∈ (aset m k v).map Prod.fst → a ∈ m.map Prod.fst ∨ a = k := by
  intro m k a v h
  rcases List.mem_map.mp h with ⟨p, hp, rfl⟩
  rcases mem_aset hp with rfl | hp'
  · exact Or.inr rfl
  · exact Or.inl (List.mem_map_of_mem Prod.fst hp')

lemma keysNodup_aset {β : Type} (k : String) (v : β) :
    ∀ {m : List (String × β)}, keysNodup m → keysNodup (aset m k v) := by
  intro m
  induction m with
  | nil => intro _; simp [aset, keysNodup]
  | cons q rest ih =>
    intro h
    obtain ⟨k', v'⟩ := q
    have h' : k' ∉ rest.map Prod.fst ∧ keysNodup rest := by
      simpa [keysNodup, List.nodup_cons] using h
    simp only [aset]
    by_cases hk : k' = k
    · rw [if_pos hk]
      subst hk
      simpa [keysNodup, List.nodup_cons] using h'
    · rw [if_neg hk]
      have hk' : k' ∉ (aset rest k v).map Prod.fst := by
        intro hmem
        rcases mem_keys_aset hmem with hmem | rfl
        · exact h'.1 hmem
        · exact hk rfl
      simpa [keysNodup, List.nodup_cons, hk'] using ih h'.2

lemma mem_adel {β : Type} : ∀ {m : List (String × β)} {k : String} {p : String × β},
    p ∈ adel m k → p ∈ m := by
  intro m
  induction m with
  | nil => intro k p h; simp [adel] at h
  | cons q rest ih =>
    intro k p h
    obtain ⟨k', v'⟩ := q
    simp only [adel] at h
    by_cases hk : k' = k
    · rw [if_pos hk] at h
      exact List.mem_cons_of_mem _ (ih h)
    · rw [if_neg hk] at h
      rcases List.mem_cons.mp h with h | h
      · exact h ▸ List.mem_cons_self _ _
      · exact List.mem_cons_of_mem _ (ih h)

lemma mem_keys_adel {β : Type} {m : List (String × β)} {k a : String}
    (h : a ∈ (adel m k).map Prod.fst) : a ∈ m.map Prod.fst := by
  rcases List.mem_map.mp h with ⟨p, hp, rfl⟩
  exact List.mem_map_of_mem Prod.fst (mem_adel hp)

lemma keysNodup_adel {β : Type} (k : String) :
    ∀ {m : List (String × β)}, keysNodup m → keysNodup (adel m k) := by
  intro m
  induction m with
  | nil => intro _; simp [adel, keysNodup]
  | cons q rest ih =>
    intro h
    obtain ⟨k', v'⟩ := q
    have h' : k' ∉ rest.map Prod.fst ∧ keysNodup rest := by
      simpa [keysNodup, List.nodup_cons] using h
    simp only [adel]
    by_cases hk : k' = k
    · rw [if_pos hk]
      exact ih h'.2
    · rw [if_neg hk]
      have hk' : k' ∉ (adel rest k).map Prod.fst := fun hmem => h'.1 (mem_keys_adel hmem)
      simpa [keysNodup, List.nodup_cons, hk'] using ih h'.2

lemma mem_setAdd {s : List String} {x y : String} (h : y ∈ setAdd s x) : y ∈ s ∨ y = x := by
  unfold setAdd at h
  split at h
  · exact Or.inl h
  · simpa using h

lemma count_nodup (l : List String) (hl : l.Nodup) (x : String) :
    l.count x = if x ∈ l then 1 else 0 := by
  by_cases hx : x ∈ l
  · simp [hx, List.count_eq_one_of_mem hl hx]
  · simp [hx, List.count_eq_zero_of_not_mem hx]

/-- C1, counterexample.  The claim says that for an online recipient whose
recorded `activeConversation` equals the conversation id the push-warranted
condition evaluates to false.  Here the recipient is online (live socket
`s2`), `activeConversation = "conv"` matches, yet because the recorded
page is `"home"` and not `"chats"` the disjunctive condition evaluates to
true, so a push dispatch is attempted. -/
theorem C1_counterexample :
    (sendMessageEffects ["s1"] (some ["s2"]) ⟨some "home", some "conv"⟩
      "alice" "bob" "conv").2 = true := by
  decide

/-- C1, amended.  For a non-empty recipient distinct from the sender with
a live-socket entry, the push-warranted condition evaluates to false iff
the recipient's recorded page is the chats page AND its recorded active
conversation is this conversation; and the live `receiveMessage` delivery
(room broadcast plus direct per-socket delivery) happens regardless of the
push decision. -/
theorem C1_amended_push_suppression :
    ∀ (room socks : List String) (a : Activity) (s r cid : String),
      r ≠ "" → r ≠ s →
      (((sendMessageEffects room (some socks) a s r cid).2 = false)
          ↔ (a.page = some "chats" ∧ a.activeConversation = some cid))
      ∧ (sendMessageEffects room (some socks) a s r cid).1 = room ++ socks := by
  intro room socks a s r cid hr hrs
  constructor
  · simp [sendMessageEffects, shouldSendNotification, hr, hrs]
  · simp [sendMessageEffects, hrs]

/-- C1, witness for the amended theorem at a concrete input: recipient
`bob` online on socket `s2`, page `chats`, active conversation `conv`. -/
theorem C1_amended_witness :
    (((sendMessageEffects ["s1"] (some ["s2"]) ⟨some "chats", some "conv"⟩
        "alice" "bob" "conv").2 = false)
      ↔ ((Activity.mk (some "chats") (some "conv")).page = some "chats"
          ∧ (Activity.mk (some "chats") (some "conv")).activeConversation = some "conv"))
    ∧ (sendMessageEffects ["s1"] (some ["s2"]) ⟨some "chats", some "conv"⟩
        "alice" "bob" "conv").1 = ["s1"] ++ ["s2"] :=
  C1_amended_push_suppression ["s1"] ["s2"] ⟨some "chats", some "conv"⟩
    "alice" "bob" "conv" (by decide) (by decide)

/-- C2, code evaluation at the failing input.  A `user:page` event for
user `U` reporting page `chats` is handled on connection `c1`.  Because
each connection handler closes over its own `userActivity` map, the
snapshot read on connection `c1` sees the page, but the snapshot a
`sendMessage` handler on any other connection `c2` reads for `U` is the
empty default: the reported page is invisible there, contradicting the
one-tracker-per-user contract. -/
theorem C2_code_eval :
    activitySnapshot (handleUserPage [] "c1" "U" "chats") "c1" "U"
        = ⟨some "chats", none⟩
    ∧ activitySnapshot (handleUserPage [] "c1" "U" "chats") "c2" "U"
        = emptyActivity := by
  constructor <;> decide

/-- C3, counterexample.  The recipient has one live connection `s1` which
is also subscribed to the conversation room: the room broadcast reaches it
once and the direct per-socket loop reaches it again, so it receives
`receiveMessage` twice — the claim says no room-subscribed connection
receives a duplicate via the direct delivery. -/
theorem C3_counterexample :
    ((sendMessageEffects ["s1"] (some ["s1"]) emptyActivity
        "alice" "bob" "conv").1).count "s1" = 2 := by
  decide

/-- C3, amended.  With duplicate-free room membership and recipient
socket set, each socket receives `receiveMessage` once per channel that
reaches it: once if subscribed to the room, plus once if it is a live
socket of the non-sender recipient.  A socket reachable through both
channels therefore receives it twice; the direct delivery does not skip
room-subscribed sockets. -/
theorem C3_amended_delivery_counts :
    ∀ (room socks : List String) (a : Activity) (s r cid x : String),
      r ≠ s → room.Nodup → socks.Nodup →
      ((sendMessageEffects room (some socks) a s r cid).1).count x
        = (if x ∈ room then 1 else 0) + (if x ∈ socks then 1 else 0) := by
  intro room socks a s r cid x hrs hroom hsocks
  have h1 : (sendMessageEffects room (some socks) a s r cid).1 = room ++ socks := by
    simp [sendMessageEffects, hrs]
  rw [h1, List.count_append, count_nodup room hroom, count_nodup socks hsocks]

/-- C3, witness for the amended theorem: socket `s2` is the recipient's
only live socket and is not in the room, so it receives exactly one copy. -/
theorem C3_amended_witness :
    ((sendMessageEffects ["s1"] (some ["s2"]) emptyActivity
        "alice" "bob" "conv").1).count "s2"
      = (if "s2" ∈ ["s1"] then 1 else 0) + (if "s2" ∈ ["s2"] then 1 else 0) :=
  C3_amended_delivery_counts ["s1"] ["s2"] emptyActivity "alice" "bob" "conv" "s2"
    (by decide) (by decide) (by decide)

lemma markAsRead_store_eq (store : List Msg) (cid reader : String) (now : Nat) :
    (markAsRead store cid reader now).store
      = store.map fun m =>
          if unreadMatch cid reader m then { m with read_at := some now } else m := by
  simp only [markAsRead]
  split <;> rfl

lemma markAsRead_clears (store : List Msg) (cid reader : String) (now : Nat) :
    ∀ m ∈ (markAsRead store cid reader now).store, unreadMatch cid reader m = false := by
  intro m hm
  rw [markAsRead_store_eq] at hm
  obtain ⟨m0, hm0, rfl⟩ := List.mem_map.mp hm
  by_cases h : unreadMatch cid reader m0
  · rw [if_pos h]
    simp [unreadMatch]
  · rw [if_neg h]
    exact Bool.eq_false_iff.mpr h

lemma markAsRead_event_count (store : List Msg) (cid reader : String) (now : Nat) :
    (markAsRead store cid reader now).roomEvent.unread_count
      = unreadCount (markAsRead store cid reader now).store cid reader := by
  simp only [markAsRead, unreadCount]
  split <;> rfl

lemma markAsRead_event_cid (store : List Msg) (cid reader : String) (now : Nat) :
    (markAsRead store cid reader now).roomEvent.conversation_id = cid := by
  simp only [markAsRead]
  split <;> rfl

lemma markAsRead_of_clear (s1 : List Msg) (cid reader : String) (t : Nat)
    (h : s1.filter (unreadMatch cid reader) = []) :
    markAsRead s1 cid reader t = ⟨s1, ⟨cid, reader, [], 0⟩, []⟩ := by
  have hmap : (s1.map fun m =>
      if unreadMatch cid reader m then { m with read_at := some t } else m) = s1 := by
    conv_rhs => rw [← List.map_id s1]
    apply List.map_congr_left
    intro m hm
    have hfalse : ¬ unreadMatch cid reader m := List.filter_eq_nil_iff.mp h m hm
    simp [if_neg hfalse]
  simp only [markAsRead, hmap, h]
  simp

/-- C5 (confirmed).  `markAsRead` is idempotent in its observable result:
the second of two consecutive calls for the same conversation and reader
updates zero messages (empty `seen_message_ids`, unchanged store), both
calls broadcast a `messagesSeen` event addressed to the conversation room
even in the zero-updated case, and both events carry the unread count
freshly recomputed over the post-update store — the two counts are equal. -/
theorem C5_markAsRead_idempotent (store : List Msg) (cid reader : String) (t1 t2 : Nat) :
    ((markAsRead (markAsRead store cid reader t1).store cid reader t2).roomEvent.seen_message_ids
        = [])
    ∧ ((markAsRead (markAsRead store cid reader t1).store cid reader t2).store
        = (markAsRead store cid reader t1).store)
    ∧ ((markAsRead store cid reader t1).roomEvent.unread_count
        = unreadCount (markAsRead store cid reader t1).store cid reader)
    ∧ ((markAsRead (markAsRead store cid reader t1).store cid reader t2).roomEvent.unread_count
        = unreadCount
            (markAsRead (markAsRead store cid reader t1).store cid reader t2).store cid reader)
    ∧ ((markAsRead store cid reader t1).roomEvent.unread_count
        = (markAsRead (markAsRead store cid reader t1).store cid reader t2).roomEvent.unread_count)
    ∧ ((markAsRead store cid reader t1).roomEvent.conversation_id = cid)
    ∧ ((markAsRead (markAsRead store cid reader t1).store cid reader t2).roomEvent.conversation_id
        = cid) := by
  have hfilter : (markAsRead store cid reader t1).store.filter (unreadMatch cid reader) = [] :=
    List.filter_eq_nil_iff.mpr fun m hm =>
      Bool.eq_false_iff.mp (markAsRead_clears store cid reader t1 m hm)
  have hsecond : markAsRead (markAsRead store cid reader t1).store cid reader t2
      = ⟨(markAsRead store cid reader t1).store, ⟨cid, reader, [], 0⟩, []⟩ :=
    markAsRead_of_clear _ cid reader t2 hfilter
  have hcount1 : (markAsRead store cid reader t1).roomEvent.unread_count = 0 := by
    rw [markAsRead_event_count, unreadCount, hfilter]
    rfl
  refine ⟨?_, ?_, ?_, ?_, ?_, ?_, ?_⟩
  · rw [hsecond]
  · rw [hsecond]
  · exact markAsRead_event_count store cid reader t1
  · exact markAsRead_event_count _ cid reader t2
  · rw [hcount1, hsecond]
  · exact markAsRead_event_cid store cid reader t1
  · exact markAsRead_event_cid _ cid reader t2

/-- C6 (confirmed).  The gate allows iff strictly fewer than 3 alert rows
are logged for the user since the start of the current day: the returned
`canSend` equals `count < 3` on a successful read, it is false whenever
exactly 3 sends are already recorded today, and any read failure yields
the fail-open result `{canSend: true, count: 0}`. -/
theorem C6_rate_gate :
    (∀ (rows : List AlertRow) (u : String) (t : Nat),
        (canSendWeatherAlert (.ok rows) u t).canSend
          = decide (countAlertsToday rows u t < 3))
    ∧ (∀ (rows : List AlertRow) (u : String) (t : Nat),
        countAlertsToday rows u t = 3 →
          (canSendWeatherAlert (.ok rows) u t).canSend = false)
    ∧ (∀ (u : String) (t : Nat),
        canSendWeatherAlert (.error ()) u t = ⟨true, 0⟩) := by
  refine ⟨fun rows u t => rfl, fun rows u t h => ?_, fun u t => rfl⟩
  simp [canSendWeatherAlert, h]

/-- C6, witness: with exactly three logged sends for user `u` today the
gate denies. -/
theorem C6_rate_gate_witness :
    (canSendWeatherAlert (.ok [⟨"u", 10⟩, ⟨"u", 11⟩, ⟨"u", 12⟩]) "u" 10).canSend = false :=
  C6_rate_gate.2.1 [⟨"u", 10⟩, ⟨"u", 11⟩, ⟨"u", 12⟩] "u" 10 (by decide)

/-- C7, counterexample.  The claim quantifies over every registration
event, but the older near-duplicate server in the same source file has no
validation guard: handling a registration with an empty userId creates a
presence entry keyed by the empty string, remembers the empty owner on
the socket, and broadcasts an `online-status` event. -/
theorem C7_counterexample :
    markUserOnlineOld initialPresence "c1" ""
      = ⟨[("", ["c1"])], [("c1", "")], [⟨"", true⟩]⟩ := by
  decide

/-- C7, amended.  The current server's `markUserOnline` rejects any
userId that is empty after trimming: the state (user-to-sockets map,
remembered owners, emitted events) is returned unchanged, and the handler
is a total function, so it cannot throw.  The older near-duplicate server
lacks this guard and mutates state for the empty userId. -/
theorem C7_amended_reject :
    ∀ (st : PresenceState) (c u : String),
      strBlank u = true → markUserOnline st c u = st := by
  intro st c u h
  simp [markUserOnline, h]

/-- C7, witness: registering the empty userId on a fresh server leaves
the state untouched. -/
theorem C7_amended_witness : markUserOnline initialPresence "c1" "" = initialPresence :=
  C7_amended_reject initialPresence "c1" "" (by decide)

/-- C9 (confirmed).  When the recipient's account metadata has
`notifications_enabled` explicitly false, `sendNotificationToUser`
performs no persistence and no per-token dispatch and returns the
distinguished skipped result; when the preference is unreadable
(`unavailable`) or simply unset, the call behaves exactly as with the
preference enabled. -/
theorem C9_preference_gate :
    ∀ (tq : Except String (List String)) (f : String → Bool) (u : String),
      u ≠ "" →
      (sendNotificationToUser (.available (some false)) tq f u
          = ({ success := false, skipped := true,
               errorMsg := some "Notifications disabled by user",
               sent := 0, failed := 0, total := 0 }, ⟨false, []⟩))
      ∧ (sendNotificationToUser .unavailable tq f u
          = sendNotificationToUser (.available (some true)) tq f u)
      ∧ (sendNotificationToUser (.available none) tq f u
          = sendNotificationToUser (.available (some true)) tq f u) := by
  intro tq f u hu
  refine ⟨?_, ?_, ?_⟩ <;> simp [sendNotificationToUser, hu]

/-- C9, witness at a concrete input: user `u1` with one token and a
succeeding gateway. -/
theorem C9_preference_gate_witness :
    (sendNotificationToUser (.available (some false)) (.ok ["t1"]) (fun _ => true) "u1"
        = ({ success := false, skipped := true,
             errorMsg := some "Notifications disabled by user",
             sent := 0, failed := 0, total := 0 }, ⟨false, []⟩))
    ∧ (sendNotificationToUser .unavailable (.ok ["t1"]) (fun _ => true) "u1"
        = sendNotificationToUser (.available (some true)) (.ok ["t1"]) (fun _ => true) "u1")
    ∧ (sendNotificationToUser (.available none) (.ok ["t1"]) (fun _ => true) "u1"
        = sendNotificationToUser (.available (some true)) (.ok ["t1"]) (fun _ => true) "u1") :=
  C9_preference_gate (.ok ["t1"]) (fun _ => true) "u1" (by decide)

/-- C10 (confirmed).  With at least one registered token and a resolving
fan-out, `sendNotificationToUser` reports `success: true` even when every
per-token send fails (`sent = 0`, `failed = total`), every token is
attempted, and consequently `sendWeatherAlert` records the alert as sent
in that case. -/
theorem C10_fanout_aggregation :
    ∀ (ts : List String) (f : String → Bool) (u : String) (g : CanSendResult)
      (pref : PrefCheck),
      u ≠ "" → ts ≠ [] → pref ≠ .available (some false) → g.canSend = true →
      (∀ t ∈ ts, f t = false) →
      ((sendNotificationToUser pref (.ok ts) f u).1
          = { success := true, skipped := false, errorMsg := none,
              sent := 0, failed := ts.length, total := ts.length })
      ∧ ((sendNotificationToUser pref (.ok ts) f u).2 = ⟨true, ts⟩)
      ∧ ((sendWeatherAlert g pref (.ok ts) f u).recorded = true) := by
  intro ts f u g pref hu hts hpref hg hf
  obtain ⟨a, ts', rfl⟩ := List.exists_cons_of_ne_nil hts
  have hfilter1 : (a :: ts').filter f = [] :=
    List.filter_eq_nil_iff.mpr fun x hx => by simp [hf x hx]
  have hfilter2 : ((a :: ts').filter fun t => !(f t)) = a :: ts' :=
    List.filter_eq_self.mpr fun x hx => by simp [hf x hx]
  have hmain : sendNotificationToUser pref (.ok (a :: ts')) f u
      = ({ success := true, skipped := false, errorMsg := none,
           sent := 0, failed := (a :: ts').length, total := (a :: ts').length },
         ⟨true, a :: ts'⟩) := by
    simp [sendNotificationToUser, sendPushNotificationToMultiple, hu, hpref,
      hfilter1, hfilter2]
  refine ⟨?_, ?_, ?_⟩
  · rw [hmain]
  · rw [hmain]
  · simp [sendWeatherAlert, hg, hmain]

/-- C10, witness: user `u1`, two tokens, every gateway send failing, the
gate open and the preference unset. -/
theorem C10_fanout_witness :
    ((sendNotificationToUser (.available none) (.ok ["t1", "t2"]) (fun _ => false) "u1").1
        = { success := true, skipped := false, errorMsg := none,
            sent := 0, failed := (["t1", "t2"] : List String).length,
            total := (["t1", "t2"] : List String).length })
    ∧ ((sendNotificationToUser (.available none) (.ok ["t1", "t2"]) (fun _ => false) "u1").2
        = ⟨true, ["t1", "t2"]⟩)
    ∧ ((sendWeatherAlert ⟨true, 0⟩ (.available none) (.ok ["t1", "t2"])
          (fun _ => false) "u1").recorded = true) :=
  C10_fanout_aggregation ["t1", "t2"] (fun _ => false) "u1" ⟨true, 0⟩ (.available none)
    (by decide) (by decide) (by decide) (by decide) (by intro t _; rfl)

/-- C4, counterexample.  Registering the same connection for user `u`
twice: the connection count stays at 1 across the second registration (no
0→1 crossing), yet because the handler tests the post-add set size
against 1 it emits a second online transition event. -/
theorem C4_counterexample :
    userConnCount (presenceRun [.register "u" "c"]) "u" = 1
    ∧ userConnCount (presenceRun [.register "u" "c", .register "u" "c"]) "u" = 1
    ∧ (presenceRun [.register "u" "c", .register "u" "c"]).emitted
        = [⟨"u", true⟩, ⟨"u", true⟩] := by
  refine ⟨by decide, by decide, by decide⟩

/-- C4, amended, a per-step characterisation of the transition events.
A valid registration of a connection not already in the user's set emits
the online event exactly when the set was empty (the 0→1 crossing); a
disconnect of a registered connection whose user has a stored set
containing it emits the offline event exactly when the set had size 1
(the 1→0 crossing); an invalid registration and a disconnect of an
unregistered socket change nothing.  Exactly-once-per-crossing fails only
for the uncovered case: re-registering a connection already present in a
singleton set re-emits the online event (the counterexample). -/
theorem C4_amended_transitions :
    (∀ (st : PresenceState) (u c : String),
        strBlank u = false → c ∉ (aget st.userSocketMap u).getD [] →
        (presenceStep st (.register u c)).emitted
          = st.emitted ++ (if userConnCount st u = 0 then [⟨u, true⟩] else []))
    ∧ (∀ (st : PresenceState) (c u : String) (s : List String),
        aget st.socketUser c = some u → aget st.userSocketMap u = some s → c ∈ s →
        (presenceStep st (.disconnect c)).emitted
          = st.emitted ++ (if s.length = 1 then [⟨u, false⟩] else []))
    ∧ (∀ (st : PresenceState) (u c : String),
        strBlank u = true → presenceStep st (.register u c) = st)
    ∧ (∀ (st : PresenceState) (c : String),
        aget st.socketUser c = none → presenceStep st (.disconnect c) = st) := by
  refine ⟨?_, ?_, ?_, ?_⟩
  · intro st u c hu hc
    simp only [presenceStep, markUserOnline, hu, Bool.false_eq_true, if_false,
      registerCore, setAdd, if_neg hc]
    have hiff : ((aget st.userSocketMap u).getD [] ++ [c]).length = 1
        ↔ userConnCount st u = 0 := by
      simp only [List.length_append, List.length_singleton, userConnCount]
      omega
    congr 1
    exact if_congr hiff rfl rfl
  · intro st c u s h1 h2 hc
    simp only [presenceStep, disconnectHandler, h1, h2]
    have hlen : (s.erase c).length = s.length - 1 := List.length_erase_of_mem hc
    have hpos : 0 < s.length := List.length_pos.mpr (List.ne_nil_of_mem hc)
    by_cases h : (s.erase c).length = 0
    · rw [if_pos h]
      have hs1 : s.length = 1 := by omega
      simp [hs1]
    · rw [if_neg h]
      have hs1 : s.length ≠ 1 := by omega
      simp [hs1]
  · intro st u c hu
    simp [presenceStep, markUserOnline, hu]
  · intro st c h
    simp [presenceStep, disconnectHandler, h]

/-- C4, witness for the amended theorem: the very first registration of
connection `c` for user `u` on a fresh server is a 0→1 crossing and emits
the online event. -/
theorem C4_amended_witness :
    (presenceStep initialPresence (.register "u" "c")).emitted
      = initialPresence.emitted
          ++ (if userConnCount initialPresence "u" = 0 then [⟨"u", true⟩] else []) :=
  C4_amended_transitions.1 initialPresence "u" "c" (by decide) (by decide)

lemma owned_update (owner : String → String) (m : List (String × List String))
    (u c : String) (hcu : owner c = u) (h2 : ownedBy owner m) :
    ownedBy owner (aset m u (setAdd ((aget m u).getD []) c)) := by
  intro u' s' hmem c' hc'
  rcases mem_aset hmem with heq | hm
  · rw [Prod.mk.injEq] at heq
    obtain ⟨h₁, h₂⟩ := heq
    subst h₂
    rw [h₁]
    rcases mem_setAdd hc' with h | rfl
    · cases hget : aget m u with
      | none => rw [hget] at h; simp at h
      | some s0 =>
        rw [hget] at h
        simp only [Option.getD_some] at h
        exact h2 u s0 (aget_mem hget) c' h
    · exact hcu
  · exact h2 u' s' hm c' hc'

lemma owned_erase (owner : String → String) (m : List (String × List String))
    (u : String) (s : List String) (hs : aget m u = some s)
    (h2 : ownedBy owner m) (c : String) :
    ownedBy owner (aset m u (s.erase c)) := by
  intro u' s' hmem c' hc'
  rcases mem_aset hmem with heq | hm
  · rw [Prod.mk.injEq] at heq
    obtain ⟨h₁, h₂⟩ := heq
    subst h₂
    rw [h₁]
    exact h2 u s (aget_mem hs) c' (List.mem_of_mem_erase hc')
  · exact h2 u' s' hm c' hc'

lemma owned_adel (owner : String → String) (m : List (String × List String))
    (u : String) (h2 : ownedBy owner m) : ownedBy owner (adel m u) :=
  fun u' s' hmem c' hc' => h2 u' s' (mem_adel hmem) c' hc'

lemma presenceInv_step (owner : String → String) (st : PresenceState) (e : PresenceEvent)
    (hok : ∀ u c, e = .register u c → u = owner c)
    (h : presenceInv owner st) : presenceInv owner (presenceStep st e) := by
  obtain ⟨h1, h2⟩ := h
  cases e with
  | register u c =>
    have hcu : owner c = u := (hok u c rfl).symm
    simp only [presenceStep, markUserOnline]
    split
    · exact ⟨h1, h2⟩
    · exact ⟨keysNodup_aset u _ h1, owned_update owner _ u c hcu h2⟩
  | disconnect c =>
    simp only [presenceStep, disconnectHandler]
    split
    · exact ⟨h1, h2⟩
    · rename_i u hgu
      split
      · exact ⟨h1, h2⟩
      · rename_i s hgm
        split
        · exact ⟨keysNodup_adel u h1, owned_adel owner _ u h2⟩
        · exact ⟨keysNodup_aset u _ h1, owned_erase owner _ u s hgm h2 c⟩

lemma presenceInv_run (owner : String → String) :
    ∀ (evs : List PresenceEvent) (st : PresenceState),
      traceRespectsOwner owner evs = true → presenceInv owner st →
      presenceInv owner (evs.foldl presenceStep st) := by
  intro evs
  induction evs with
  | nil => intro st _ h; simpa using h
  | cons e evs ih =>
    intro st htr h
    rw [List.foldl_cons]
    have htail : traceRespectsOwner owner evs = true := by
      have h' := htr
      simp only [traceRespectsOwner, List.all_cons, Bool.and_eq_true] at h'
      exact h'.2
    apply ih _ htail
    apply presenceInv_step owner st e ?_ h
    intro u c hec
    subst hec
    have h' := htr
    simp only [traceRespectsOwner, List.all_cons, Bool.and_eq_true,
      decide_eq_true_eq] at h'
    exact h'.1

lemma countP_le_one_of_inv (owner : String → String) (c : String) :
    ∀ (m : List (String × List String)), keysNodup m → ownedBy owner m →
      m.countP (fun p => decide (c ∈ p.2)) ≤ 1 := by
  intro m
  induction m with
  | nil => intro _ _; simp
  | cons p rest ih =>
    intro h1 h2
    obtain ⟨u, s⟩ := p
    have h1' : u ∉ rest.map Prod.fst ∧ keysNodup rest := by
      simpa [keysNodup, List.nodup_cons] using h1
    have h2' : ownedBy owner rest :=
      fun u' s' hm c' hc' => h2 u' s' (List.mem_cons_of_mem _ hm) c' hc'
    by_cases hcs : c ∈ s
    · have hu : owner c = u := h2 u s (List.mem_cons_self _ _) c hcs
      have hzero : rest.countP (fun p => decide (c ∈ p.2)) = 0 := by
        rw [List.countP_eq_zero]
        intro q hq
        simp only [decide_eq_true_eq]
        intro hcq
        have hq' : (q.1, q.2) ∈ (u, s) :: rest := List.mem_cons_of_mem _ (by simpa using hq)
        have hqu : owner c = q.1 := h2 q.1 q.2 hq' c hcq
        have : u ∈ rest.map Prod.fst := by
          have : q.1 = u := by rw [← hqu, hu]
          rw [← this]
          exact List.mem_map_of_mem Prod.fst hq
        exact h1'.1 this
      rw [List.countP_cons]
      simp [hcs, hzero]
    · rw [List.countP_cons]
      simpa [hcs] using ih h1'.2 h2'

/-- C8, counterexample.  Connection `c` registers for user `A`, then
re-registers for user `B`: the handler only overwrites the socket's
remembered owner, it never removes the connection from the previous
user's set, so afterwards `c` is present in both presence entries. -/
theorem C8_counterexample :
    ((presenceRun [.register "A" "c", .register "B" "c"]).userSocketMap.countP
        (fun p => decide ("c" ∈ p.2))) = 2 := by
  decide

/-- C8, amended.  Along any trace in which every connection only ever
registers under its one fixed owner (no re-registration of a connection
under a different userId), each connection id appears in the connection
set of at most one user's presence entry at every reachable state. -/
theorem C8_amended_unique_owner :
    ∀ (owner : String → String) (evs : List PresenceEvent),
      traceRespectsOwner owner evs = true →
      ∀ c : String,
        ((presenceRun evs).userSocketMap.countP (fun p => decide (c ∈ p.2))) ≤ 1 := by
  intro owner evs htr c
  have hinit : presenceInv owner initialPresence := by
    refine ⟨by simp [initialPresence, keysNodup], ?_⟩
    intro u s h c' hc'
    simp [initialPresence] at h
  have hinv : presenceInv owner (presenceRun evs) :=
    presenceInv_run owner evs initialPresence htr hinit
  exact countP_le_one_of_inv owner c _ hinv.1 hinv.2

/-- C8, witness: a trace of registrations and a disconnect in which every
connection keeps one owner; connection `c1` ends up in at most one entry. -/
theorem C8_amended_witness :
    ((presenceRun [.register "A" "c1", .register "A" "c1", .register "A" "c2",
        .disconnect "c1"]).userSocketMap.countP
          (fun p => decide ("c1" ∈ p.2))) ≤ 1 :=
  C8_amended_unique_owner (fun _ => "A")
    [.register "A" "c1", .register "A" "c1", .register "A" "c2", .disconnect "c1"]
    (by decide) "c1"

end SocketServer
